import Mathlib

/-!
Shallow embedding of the grace-bible browser application, covering the
components the specification describes: the base64 codec and PCM audio
decoder from geminiService, the text and speech fetchers (both source
revisions), the playback controller state machine, the reading progress
store and the font size preference from the App components.

External collaborators (the generative AI endpoint, the browser audio
output sink and the key value storage) are modelled as explicit inputs:
a call that may fail over the network is passed its outcome as an
Except value, and thrown JS exceptions are rendered as Except errors or
Option none results.
-/

set_option maxHeartbeats 1000000

/- ----------------------------------------------------------------
   Base64 codec.  The source function decodeBase64 feeds its input to
   the browser builtin atob and copies the resulting binary string
   char codes into a byte array.  atob is modelled from its standard
   behaviour (RFC 4648 base64 with optional trailing padding); a
   malformed input makes atob throw, modelled as none.
   ---------------------------------------------------------------- -/

def b64AlphabetStr : String :=
  "ABCDEFGHIJKLMNOPQRSTUVWXYZabcdefghijklmnopqrstuvwxyz0123456789+/"

def b64Alphabet : List Char := b64AlphabetStr.toList

/-- Character of a 6 bit group in the standard base64 alphabet. -/
def b64Char (n : Nat) : Char := b64Alphabet.getD n 'A'

/-- Reassembles bytes from a stream of 6 bit groups: full groups of four
    sextets give three bytes, a trailing pair gives one byte and a
    trailing triple gives two bytes, as atob does after stripping
    padding. -/
def decodeSextets : List Nat → List Nat
  | s1 :: s2 :: s3 :: s4 :: rest =>
      (s1 * 4 + s2 / 16) :: ((s2 % 16) * 16 + s3 / 4) :: ((s3 % 4) * 64 + s4) ::
        decodeSextets rest
  | [s1, s2] => [s1 * 4 + s2 / 16]
  | [s1, s2, s3] => [s1 * 4 + s2 / 16, (s2 % 16) * 16 + s3 / 4]
  | _ => []

/-- Splits bytes into 6 bit groups, the inverse direction used to state
    the round trip property; mirrors the standard btoa encoder. -/
def encodeSextets : List Nat → List Nat
  | b1 :: b2 :: b3 :: rest =>
      b1 / 4 :: ((b1 % 4) * 16 + b2 / 16) :: ((b2 % 16) * 4 + b3 / 64) :: (b3 % 64) ::
        encodeSextets rest
  | [b1] => [b1 / 4, (b1 % 4) * 16]
  | [b1, b2] => [b1 / 4, (b1 % 4) * 16 + b2 / 16, (b2 % 16) * 4]
  | [] => []

/-- Padding characters appended by the standard base64 encoder for a
    byte count that is not a multiple of three. -/
def padChars (n : Nat) : List Char :=
  match n % 3 with
  | 1 => ['=', '=']
  | 2 => ['=']
  | _ => []

/-- Standard base64 encoding of a byte sequence (the browser builtin
    btoa), used as the encoder side of the round trip claim. -/
def btoa (bytes : List Nat) : String :=
  String.mk ((encodeSextets bytes).map b64Char ++ padChars bytes.length)

/-- Removes the trailing run of padding characters. -/
def stripPad (cs : List Char) : List Char :=
  (cs.reverse.dropWhile (fun c => c = '=')).reverse

/-- Modelled from the spec: the browser builtin atob performing standard
    base64 decoding, which the repository calls but does not define.
    Rejects inputs with more than two padding characters, with a
    character outside the alphabet (this also rejects interior padding)
    or with a group of a single leftover sextet; otherwise converts each
    character to its alphabet index and reassembles the bytes.  The
    result stands for the char codes of the returned binary string. -/
def atobBytes (s : String) : Option (List Nat) :=
  let cs := s.toList
  let core := stripPad cs
  if cs.length - core.length > 2 then none
  else if ! core.all (fun c => b64Alphabet.contains c) then none
  else if core.length % 4 = 1 then none
  else some (decodeSextets (core.map (fun c => b64Alphabet.indexOf c)))

/-- decodeBase64 from geminiService: atob followed by a loop copying the
    binary string char codes into a byte array (the identity on the
    byte list); an atob fault propagates, modelled as none. -/
def decodeBase64 (base64 : String) : Option (List Nat) :=
  atobBytes base64

/- ----------------------------------------------------------------
   PCM decoder (decodeAudioData from geminiService, identical in both
   source revisions).
   ---------------------------------------------------------------- -/

/-- Signed 16 bit little endian value of a byte pair, as read through
    the Int16Array view of the byte buffer. -/
def int16OfPair (lo hi : Nat) : Int :=
  let u := lo + 256 * hi
  if u < 32768 then (u : Int) else (u : Int) - 65536

/-- Sequence of signed 16 bit samples of a byte buffer, the Int16Array
    view used by decodeAudioData. -/
def toInt16 : List Nat → List Int
  | lo :: hi :: rest => int16OfPair lo hi :: toInt16 rest
  | _ => []

/-- Channel separated buffer produced for the audio output sink. -/
structure AudioBuffer where
  numChannels : Nat
  frameCount : Nat
  sampleRate : Nat
  channelData : List (List Rat)
deriving DecidableEq

/-- decodeAudioData from geminiService: views the byte buffer as signed
    16 bit samples (the Int16Array constructor throws on an odd byte
    length, modelled as none), computes the frame count as the sample
    count divided by the channel count (the fractional quotient is
    truncated by the Web IDL conversion at the createBuffer boundary,
    but createBuffer throws NotSupportedError on a zero length, so a
    truncated frame count of zero is a failure, modelled as none), and
    fills each channel by reading sample i of channel c at interleaved
    index i * numChannels + c, dividing by 32768.  The audio context
    argument only supplies the buffer allocator and is left out of the
    embedding. -/
def decodeAudioData (data : List Nat) (sampleRate : Nat) (numChannels : Nat) :
    Option AudioBuffer :=
  if data.length % 2 ≠ 0 then none
  else if (toInt16 data).length / numChannels = 0 then none
  else
    some
      { numChannels := numChannels
        frameCount := (toInt16 data).length / numChannels
        sampleRate := sampleRate
        channelData :=
          (List.range numChannels).map fun channel =>
            (List.range ((toInt16 data).length / numChannels)).map fun i =>
              (((toInt16 data).getD (i * numChannels + channel) 0 : Int) : Rat) / 32768 }

/- ----------------------------------------------------------------
   Speech fetcher (generateSpeech, identical behaviour in both source
   revisions: the part_000 revision catches the fault only to log it
   and rethrows the same error).
   ---------------------------------------------------------------- -/

structure InlineData where
  data : Option String
deriving DecidableEq

structure SpeechPart where
  inlineData : Option InlineData
deriving DecidableEq

structure SpeechContent where
  parts : Option (List SpeechPart)
deriving DecidableEq

structure Candidate where
  content : Option SpeechContent
deriving DecidableEq

structure GenResponse where
  candidates : Option (List Candidate)
deriving DecidableEq

inductive CollabError
  | network
  | auth
deriving DecidableEq

inductive SpeechError
  | collab (e : CollabError)
  | audioEmpty
deriving DecidableEq

/-- Optional chain response.candidates, first element, content, parts,
    first element, inlineData, data from generateSpeech. -/
def extractAudio (r : GenResponse) : Option String :=
  ((((r.candidates.bind List.head?).bind Candidate.content).bind
      SpeechContent.parts).bind List.head?).bind
    (fun p => p.inlineData.bind InlineData.data)

/-- True when the optional chain produces a JS truthy payload: a present
    and nonempty base64 string. -/
def hasAudioPayload (r : GenResponse) : Bool :=
  match extractAudio r with
  | some d => d ≠ ""
  | none => false

/-- generateSpeech: the collaborator call outcome is passed in; a
    collaborator fault propagates, and an ok response without a truthy
    inline audio payload raises the audio generation error (the source
    guard reads if not base64Audio then throw, so the empty string also
    counts as missing data). -/
def generateSpeech (collab : Except CollabError GenResponse) :
    Except SpeechError String :=
  match collab with
  | .error e => .error (SpeechError.collab e)
  | .ok r =>
    match extractAudio r with
    | some d => if d = "" then .error SpeechError.audioEmpty else .ok d
    | none => .error SpeechError.audioEmpty

/- ----------------------------------------------------------------
   Text fetcher, in both source revisions.
   ---------------------------------------------------------------- -/

structure TextResponse where
  text : Option String
deriving DecidableEq

/-- Key guard of getAiClient in the part_000 revision: missing, empty or
    the literal undefined string makes it throw. -/
def badApiKey : Option String → Bool
  | none => true
  | some k => k = "" || k = "undefined"

def emptyTextFallbackP0 : String := "無法獲取經文。"

def fetchFailMessage : String := "讀取失敗，請確認 API Key 是否有效。"

def emptyTextFallbackSvc : String := "無法獲取經文內容，請稍後再試。"

def emptyText : String := ""

def demoText : String := "abc"

namespace Part000

/-- fetchChapterText of the part_000 revision: the whole body sits in a
    try catch, so a bad key (getAiClient throws) or a collaborator
    fault yields the localized failure string, a falsy response text
    yields the empty text fallback, and otherwise the response text is
    returned; the String result type renders that no exception reaches
    the caller. -/
def fetchChapterText (apiKey : Option String)
    (collab : Except CollabError TextResponse) : String :=
  if badApiKey apiKey then fetchFailMessage
  else
    match collab with
    | .error _ => fetchFailMessage
    | .ok r =>
      match r.text with
      | some t => if t = "" then emptyTextFallbackP0 else t
      | none => emptyTextFallbackP0

end Part000

namespace Services

/-- fetchChapterText of src services geminiService.ts: no try catch, so
    a collaborator fault propagates to the caller; only a falsy
    response text is replaced by the fallback string. -/
def fetchChapterText (collab : Except CollabError TextResponse) :
    Except CollabError String :=
  match collab with
  | .error e => .error e
  | .ok r =>
    .ok
      (match r.text with
       | some t => if t = "" then emptyTextFallbackSvc else t
       | none => emptyTextFallbackSvc)

end Services

/- ----------------------------------------------------------------
   Playback controller (playAudio and stopAudio of the App components;
   the part_000 and part_001 revisions differ only in log and alert
   text).  Sessions connected to the output sink carry an identifier;
   activeSessions lists the sessions currently connected and not
   stopped, audioSource is the audioSourceRef holding the current
   source.  The audio context initialisation only touches the sink and
   is not part of the observable state here.
   ---------------------------------------------------------------- -/

inductive AudioState
  | idle
  | loading
  | playing
  | error
deriving DecidableEq

structure PlayerState where
  audioState : AudioState
  audioSource : Option Nat
  activeSessions : List Nat
deriving DecidableEq

/-- Effect on the connected sessions of the guarded stop of the current
    source: only the session held by the source ref is stopped (its
    stop fault, if any, is swallowed). -/
def stopCurrent (s : PlayerState) : List Nat :=
  match s.audioSource with
  | some old => s.activeSessions.filter (fun x => x ≠ old)
  | none => s.activeSessions

/-- stopAudio: stops the current source inside a try catch whose fault
    (flag stopFaults) is swallowed, clears the source ref and sets the
    state to idle, from any prior state. -/
def stopAudio (s : PlayerState) (_stopFaults : Bool) : PlayerState :=
  { audioState := AudioState.idle
    audioSource := none
    activeSessions := stopCurrent s }

/-- Catch branch of playAudio: the state moves to error, the session
    fields are untouched, and the user alert is raised (the Bool). -/
def playFailure (s : PlayerState) : PlayerState × Bool :=
  ({ s with audioState := AudioState.error }, true)

/-- Success branch of playAudio: the previous source is stopped, a
    fresh source is connected to the sink and started, the ref now
    holds it and the state is playing. -/
def playSuccess (s : PlayerState) (newId : Nat) : PlayerState × Bool :=
  ({ audioState := AudioState.playing
     audioSource := some newId
     activeSessions := stopCurrent s ++ [newId] }, false)

/-- Decode steps of playAudio after the speech payload arrives: atob
    (throwing on malformed base64) then the PCM decoder (throwing on an
    odd byte length) at the fixed 24000 Hz mono configuration. -/
def decodeChain (b64 : String) : Option AudioBuffer :=
  match decodeBase64 b64 with
  | none => none
  | some bytes => decodeAudioData bytes 24000 1

/-- playAudio: a no op when the chapter text is falsy or the state is
    already loading; otherwise sets loading, obtains the speech payload
    (outcome passed in), decodes base64 and PCM, and on success stops
    the previous source (fault swallowed), connects and starts a fresh
    source and moves to playing; any fault in the chain is caught,
    moving to error and raising the user alert. -/
def playAudio (s : PlayerState) (chapterContent : String)
    (speech : Except SpeechError String) (newId : Nat) (_stopFaults : Bool) :
    PlayerState × Bool :=
  if chapterContent = "" ∨ s.audioState = AudioState.loading then (s, false)
  else
    match speech with
    | .error _ => playFailure s
    | .ok b64 =>
      match decodeChain b64 with
      | none => playFailure s
      | some _buffer => playSuccess s newId

/-- Classifies the speech fetch and decode chain outcomes that throw
    inside playAudio: a speech fetch fault, an atob fault, or the PCM
    decoder rejecting an odd byte length. -/
def chainFails (speech : Except SpeechError String) : Bool :=
  match speech with
  | .error _ => true
  | .ok b64 => (decodeChain b64).isNone

/-- Invariant of the controller: at most one session is connected to
    the output sink, and any connected session is the one held by the
    source ref. -/
def sessionInv (s : PlayerState) : Prop :=
  s.activeSessions.length ≤ 1 ∧ ∀ x ∈ s.activeSessions, s.audioSource = some x

/- ----------------------------------------------------------------
   Reading progress store and font size preference.  The JS object
   mapping with the read pattern prev at bookId or else the empty list
   is modelled as a total function with default empty list.
   ---------------------------------------------------------------- -/

def ReadingProgress : Type := String → List Nat

/-- toggleChapterProgress: reads the chapters of the book (absent key
    means empty list), removes the chapter when present and appends it
    when absent, and writes the updated list back under the key. -/
def toggleChapterProgress (p : ReadingProgress) (bookId : String) (chapter : Nat) :
    ReadingProgress :=
  let currentBookChapters := p bookId
  let updated :=
    if chapter ∈ currentBookChapters then
      currentBookChapters.filter (fun c => c ≠ chapter)
    else currentBookChapters ++ [chapter]
  fun b => if b = bookId then updated else p b

/-- isCompleted: membership of the chapter in the list under the key,
    absent key meaning the empty list. -/
def isCompleted (p : ReadingProgress) (bookId : String) (chapter : Nat) : Bool :=
  chapter ∈ p bookId

/-- adjustFontSize from the part_001 revision: clamp of the shifted
    size into the interval from 14 to 48. -/
def adjustFontSize (prev delta : Int) : Int :=
  min 48 (max 14 (prev + delta))

/- ----------------------------------------------------------------
   Claim theorems.
   ---------------------------------------------------------------- -/

/-- C10: for every current font size within the interval from 14 to 48
    and every delta, adjustFontSize produces a value of at least 14 and
    at most 48, so repeated adjustments can never leave the range. -/
theorem adjustFontSize_clamped (prev delta : Int)
    (h1 : 14 ≤ prev) (h2 : prev ≤ 48) :
    14 ≤ adjustFontSize prev delta ∧ adjustFontSize prev delta ≤ 48 := by
  unfold adjustFontSize
  omega

/-- Witness for C10 at size 20 and delta minus two. -/
theorem adjustFontSize_clamped_witness :
    14 ≤ adjustFontSize 20 (-2) ∧ adjustFontSize 20 (-2) ≤ 48 :=
  adjustFontSize_clamped 20 (-2) (by decide) (by decide)

/-- C7: stopAudio is a total function callable in every playback state,
    including with no active session; its result does not depend on
    whether the underlying stop call faults, the session reference is
    cleared and the playback state is idle unconditionally. -/
theorem stopAudio_total (s : PlayerState) (f : Bool) :
    (stopAudio s f).audioState = AudioState.idle ∧
    (stopAudio s f).audioSource = none ∧
    stopAudio s f = stopAudio s (!f) :=
  ⟨rfl, rfl, rfl⟩

/-- C1 counterexample: in the src services geminiService.ts revision a
    collaborator network fault propagates out of fetchChapterText
    instead of being turned into the localized fallback string. -/
theorem servicesFetch_propagates :
    Services.fetchChapterText (Except.error CollabError.network)
      = Except.error CollabError.network := rfl

/-- C1 amended: in the part_000 revision fetchChapterText returns the
    localized failure string on a bad credential or any collaborator
    fault and the empty text fallback on a falsy response text, never
    propagating an exception (its result type is a plain String); in
    the src services geminiService.ts revision a collaborator fault
    propagates to the caller, a successful call always yields a string,
    a falsy response text is replaced by the localized fallback string
    of that revision, and a nonempty response text is returned
    unchanged. -/
theorem fetchChapterText_fallback :
    (∀ key collab, badApiKey key = true ∨ collab.isOk = false →
        Part000.fetchChapterText key collab = fetchFailMessage) ∧
    (∀ key r, badApiKey key = false →
        (r.text = none ∨ r.text = some emptyText) →
        Part000.fetchChapterText key (Except.ok r) = emptyTextFallbackP0) ∧
    (∀ e, Services.fetchChapterText (Except.error e) = Except.error e) ∧
    (∀ r, (Services.fetchChapterText (Except.ok r)).isOk = true) ∧
    (∀ r, (r.text = none ∨ r.text = some emptyText) →
        Services.fetchChapterText (Except.ok r) = Except.ok emptyTextFallbackSvc) ∧
    (∀ r t, r.text = some t → t ≠ emptyText →
        Services.fetchChapterText (Except.ok r) = Except.ok t) := by
  refine ⟨?_, ?_, ?_, ?_, ?_, ?_⟩
  · intro key collab h
    unfold Part000.fetchChapterText
    rcases h with h | h
    · simp [h]
    · cases collab with
      | error e => cases hk : badApiKey key <;> simp [hk]
      | ok r => simp [Except.isOk, Except.toBool] at h
  · intro key r hk hr
    unfold Part000.fetchChapterText
    rcases hr with hr | hr <;> simp [hk, hr, emptyText]
  · intro e
    rfl
  · intro r
    rfl
  · intro r hr
    simp only [Services.fetchChapterText]
    rcases hr with hr | hr <;> simp [hr, emptyText]
  · intro r t hrt ht
    simp only [Services.fetchChapterText, hrt]
    simp only [emptyText] at ht
    simp [ht]

/-- Witness for C1 amended: a network fault with a missing key yields
    the localized failure string in the part_000 revision. -/
theorem fetchChapterText_fallback_witness :
    Part000.fetchChapterText none (Except.error CollabError.network)
      = fetchFailMessage :=
  fetchChapterText_fallback.1 none (Except.error CollabError.network)
    (Or.inl (by decide))

/-- C5: generateSpeech propagates a collaborator fault to the caller;
    on an ok response it fails exactly when the first candidate carries
    no truthy inline audio payload, and when a nonempty payload is
    present it returns that base64 payload. -/
theorem generateSpeech_spec :
    (∀ e, generateSpeech (Except.error e)
        = Except.error (SpeechError.collab e)) ∧
    (∀ r, (generateSpeech (Except.ok r)).isOk = hasAudioPayload r) ∧
    (∀ r d, extractAudio r = some d → d ≠ emptyText →
        generateSpeech (Except.ok r) = Except.ok d) := by
  refine ⟨fun e => rfl, ?_, ?_⟩
  · intro r
    simp only [generateSpeech, hasAudioPayload]
    cases h : extractAudio r with
    | none => simp [h, Except.isOk, Except.toBool]
    | some d =>
      by_cases hd : d = "" <;> simp [h, hd, Except.isOk, Except.toBool]
  · intro r d h hd
    simp only [generateSpeech]
    rw [h]
    simp only [emptyText] at hd
    simp [hd]

/-- Response sample carrying a nonempty inline audio payload in its
    first candidate. -/
def demoResponse : GenResponse :=
  GenResponse.mk
    (some [Candidate.mk
      (some (SpeechContent.mk
        (some [SpeechPart.mk (some (InlineData.mk (some demoText)))])))])

/-- Witness for C5 at a response carrying a nonempty payload in its
    first candidate. -/
theorem generateSpeech_spec_witness :
    generateSpeech (Except.ok demoResponse) = Except.ok demoText :=
  generateSpeech_spec.2.2 demoResponse demoText rfl (by decide)

/-- Reading the toggled book returns the updated chapter list. -/
theorem toggle_apply_same (p : ReadingProgress) (bookId : String) (chapter : Nat) :
    toggleChapterProgress p bookId chapter bookId
      = if chapter ∈ p bookId then (p bookId).filter (fun c => c ≠ chapter)
        else p bookId ++ [chapter] := by
  simp [toggleChapterProgress]

/-- Reading any other book is unaffected by a toggle. -/
theorem toggle_apply_other (p : ReadingProgress) (bookId b : String) (chapter : Nat)
    (h : b ≠ bookId) :
    toggleChapterProgress p bookId chapter b = p b := by
  simp [toggleChapterProgress, h]

/-- C6: for every progress mapping, book and chapter, the toggle flips
    the membership of the chapter in the set of that book (insert when
    absent, remove when present), and toggling twice with the same
    arguments restores the original membership everywhere. -/
theorem toggleChapterProgress_involutive (p : ReadingProgress) (bookId : String)
    (chapter : Nat) :
    isCompleted (toggleChapterProgress p bookId chapter) bookId chapter
        = ! isCompleted p bookId chapter ∧
    ∀ b c,
      isCompleted
          (toggleChapterProgress (toggleChapterProgress p bookId chapter) bookId chapter)
          b c
        = isCompleted p b c := by
  constructor
  · simp only [isCompleted, toggle_apply_same]
    by_cases h : chapter ∈ p bookId <;>
      simp [h, List.mem_filter, List.mem_append]
  · intro b c
    by_cases hb : b = bookId
    · subst hb
      simp only [isCompleted, toggle_apply_same]
      by_cases h : chapter ∈ p b
      · have h1 : chapter ∉ (p b).filter (fun c => c ≠ chapter) := by
          simp [List.mem_filter]
        by_cases hc : c = chapter <;>
          simp [h, h1, hc, List.mem_filter, List.mem_append]
      · have h1 : chapter ∈ p b ++ [chapter] := by simp
        by_cases hc : c = chapter <;>
          simp [h, h1, hc, List.mem_filter, List.mem_append]
    · simp only [isCompleted, toggle_apply_other _ _ _ _ hb]

/-- Sample count of the Int16 view: half the byte count. -/
theorem toInt16_length : ∀ data : List Nat, (toInt16 data).length = data.length / 2
  | [] => rfl
  | [_] => by simp [toInt16]
  | lo :: hi :: rest => by
      have ih := toInt16_length rest
      simp only [toInt16, List.length_cons, ih]
      omega

/-- C2 counterexample: at a single 16 bit sample and two channels the
    sample count does not divide evenly by the channel count, yet the
    decoder fails instead of truncating: the truncated frame count is
    zero and createBuffer throws on a zero length. -/
theorem decodeAudioData_zero_frames :
    (toInt16 [0, 0]).length % 2 ≠ 0 ∧ decodeAudioData [0, 0] 24000 2 = none := by
  decide

/-- C2 amended: for an even byte count and a positive channel count,
    the decoder fails when the sample count is below the channel count
    (the truncated frame count would be zero and createBuffer throws on
    a zero length); otherwise it succeeds, its frame count is the total
    16 bit sample count divided by the channel count, and when the
    sample count does not divide evenly the remainder is truncated
    (floor characterisation of the division). -/
theorem decodeAudioData_frameCount (data : List Nat) (ch : Nat)
    (heven : data.length % 2 = 0) (hch : 0 < ch) :
    ((toInt16 data).length < ch → decodeAudioData data 24000 ch = none) ∧
    (ch ≤ (toInt16 data).length →
      ∃ buf, decodeAudioData data 24000 ch = some buf ∧
        buf.frameCount = (toInt16 data).length / ch ∧
        ch * buf.frameCount ≤ (toInt16 data).length ∧
        (toInt16 data).length < ch * (buf.frameCount + 1)) := by
  unfold decodeAudioData
  rw [if_neg (by omega)]
  constructor
  · intro hlt
    rw [if_pos (Nat.div_eq_of_lt hlt)]
  · intro hge
    have hpos : (toInt16 data).length / ch ≠ 0 := by
      have := (Nat.one_le_div_iff hch).mpr hge
      omega
    rw [if_neg hpos]
    refine ⟨_, rfl, rfl, ?_, ?_⟩
    · calc ch * ((toInt16 data).length / ch)
          = (toInt16 data).length / ch * ch := Nat.mul_comm _ _
        _ ≤ (toInt16 data).length := Nat.div_mul_le_self _ _
    · have h1 : (toInt16 data).length / ch < (toInt16 data).length / ch + 1 :=
        Nat.lt_succ_self _
      have h2 := (Nat.div_lt_iff_lt_mul hch).mp h1
      calc (toInt16 data).length
          < ((toInt16 data).length / ch + 1) * ch := h2
        _ = ch * ((toInt16 data).length / ch + 1) := Nat.mul_comm _ _

/-- Witness for C2 amended: one sample at two channels fails, and six
    bytes (three samples) at two channels succeed with the odd sample
    truncated. -/
theorem decodeAudioData_frameCount_witness :
    decodeAudioData [0, 0] 24000 2 = none ∧
    (∃ buf, decodeAudioData [0, 0, 0, 0, 0, 0] 24000 2 = some buf ∧
      buf.frameCount = (toInt16 [0, 0, 0, 0, 0, 0]).length / 2 ∧
      2 * buf.frameCount ≤ (toInt16 [0, 0, 0, 0, 0, 0]).length ∧
      (toInt16 [0, 0, 0, 0, 0, 0]).length < 2 * (buf.frameCount + 1)) :=
  ⟨(decodeAudioData_frameCount [0, 0] 2 (by decide) (by decide)).1 (by decide),
   (decodeAudioData_frameCount [0, 0, 0, 0, 0, 0] 2 (by decide) (by decide)).2 (by decide)⟩

/-- Under the session invariant, stopping the tracked source leaves no
    session connected. -/
theorem stopCurrent_empty (s : PlayerState) (hinv : sessionInv s) :
    stopCurrent s = [] := by
  unfold stopCurrent
  cases hs : s.audioSource with
  | none =>
    cases hA : s.activeSessions with
    | nil => rfl
    | cons a t =>
      have h := hinv.2 a (by rw [hA]; exact List.mem_cons_self a t)
      rw [hs] at h
      simp at h
  | some old =>
    rw [List.filter_eq_nil_iff]
    intro a ha
    have h := hinv.2 a ha
    rw [hs] at h
    simp only [Option.some.injEq] at h
    simp [h]

/-- Guard branch of playAudio. -/
theorem playAudio_guard (s : PlayerState) (content : String)
    (speech : Except SpeechError String) (newId : Nat) (f : Bool)
    (h : content = "" ∨ s.audioState = AudioState.loading) :
    playAudio s content speech newId f = (s, false) := by
  unfold playAudio
  rw [if_pos h]

/-- Speech fault branch of playAudio. -/
theorem playAudio_error (s : PlayerState) (content : String) (e : SpeechError)
    (newId : Nat) (f : Bool)
    (h : ¬(content = "" ∨ s.audioState = AudioState.loading)) :
    playAudio s content (Except.error e) newId f = playFailure s := by
  unfold playAudio
  rw [if_neg h]

/-- Decode fault branch of playAudio. -/
theorem playAudio_ok_none (s : PlayerState) (content b64 : String)
    (newId : Nat) (f : Bool)
    (h : ¬(content = "" ∨ s.audioState = AudioState.loading))
    (hdc : decodeChain b64 = none) :
    playAudio s content (Except.ok b64) newId f = playFailure s := by
  unfold playAudio
  rw [if_neg h]
  show (match decodeChain b64 with
        | none => playFailure s
        | some _buffer => playSuccess s newId) = playFailure s
  rw [hdc]

/-- Success branch of playAudio. -/
theorem playAudio_ok_some (s : PlayerState) (content b64 : String)
    (newId : Nat) (f : Bool) (buf : AudioBuffer)
    (h : ¬(content = "" ∨ s.audioState = AudioState.loading))
    (hdc : decodeChain b64 = some buf) :
    playAudio s content (Except.ok b64) newId f = playSuccess s newId := by
  unfold playAudio
  rw [if_neg h]
  show (match decodeChain b64 with
        | none => playFailure s
        | some _buffer => playSuccess s newId) = playSuccess s newId
  rw [hdc]

/-- C3: playAudio is a no op when the chapter text is empty or the
    state is already loading (so the second of two rapid play calls
    does nothing); it preserves the invariant that at most one session
    is connected to the output sink, as does stopAudio; and whenever a
    new source is started the prior session has been stopped and is no
    longer connected. -/
theorem playAudio_single_session :
    (∀ s content speech newId f,
        content = "" ∨ s.audioState = AudioState.loading →
        playAudio s content speech newId f = (s, false)) ∧
    (∀ s content speech newId f, sessionInv s →
        sessionInv (playAudio s content speech newId f).1) ∧
    (∀ s f, sessionInv s → sessionInv (stopAudio s f)) ∧
    (∀ s content speech newId f old,
        s.audioSource = some old → old ≠ newId →
        (playAudio s content speech newId f).1.audioSource = some newId →
        old ∉ (playAudio s content speech newId f).1.activeSessions) := by
  refine ⟨playAudio_guard, ?_, ?_, ?_⟩
  · intro s content speech newId f hinv
    by_cases hg : content = "" ∨ s.audioState = AudioState.loading
    · rw [playAudio_guard s content speech newId f hg]
      exact hinv
    · cases speech with
      | error e =>
        rw [playAudio_error s content e newId f hg]
        exact ⟨hinv.1, hinv.2⟩
      | ok b64 =>
        cases hdc : decodeChain b64 with
        | none =>
          rw [playAudio_ok_none s content b64 newId f hg hdc]
          exact ⟨hinv.1, hinv.2⟩
        | some buf =>
          rw [playAudio_ok_some s content b64 newId f buf hg hdc]
          unfold playSuccess
          rw [stopCurrent_empty s hinv]
          exact ⟨by simp, by simp⟩
  · intro s f hinv
    unfold stopAudio
    rw [stopCurrent_empty s hinv]
    exact ⟨by simp, by simp⟩
  · intro s content speech newId f old hs hne hplay
    by_cases hg : content = "" ∨ s.audioState = AudioState.loading
    · rw [playAudio_guard s content speech newId f hg] at hplay
      rw [hs] at hplay
      exact absurd hplay (by simp [hne])
    · cases speech with
      | error e =>
        rw [playAudio_error s content e newId f hg] at hplay
        unfold playFailure at hplay
        simp only at hplay
        rw [hs] at hplay
        exact absurd hplay (by simp [hne])
      | ok b64 =>
        cases hdc : decodeChain b64 with
        | none =>
          rw [playAudio_ok_none s content b64 newId f hg hdc] at hplay
          unfold playFailure at hplay
          simp only at hplay
          rw [hs] at hplay
          exact absurd hplay (by simp [hne])
        | some buf =>
          rw [playAudio_ok_some s content b64 newId f buf hg hdc]
          unfold playSuccess stopCurrent
          rw [hs]
          simp [List.mem_filter, hne]

/-- Witness for C3: a second play call arriving in the loading state is
    a no op, and stopping a state with one connected session leaves the
    invariant intact. -/
theorem playAudio_single_session_witness :
    playAudio (PlayerState.mk AudioState.loading none []) demoText
        (Except.error SpeechError.audioEmpty) 7 false
      = (PlayerState.mk AudioState.loading none [], false) ∧
    sessionInv (stopAudio (PlayerState.mk AudioState.playing (some 3) [3]) false) :=
  ⟨playAudio_single_session.1 _ _ _ _ _ (Or.inr rfl),
   playAudio_single_session.2.2.1 _ false
     ⟨by simp, by intro x hx; simp at hx; simp [hx]⟩⟩

/-- C8: when the guard passes and any step of the chain fails (speech
    fetch, base64 decode or PCM decode), playAudio moves the state to
    error and raises the user alert, and neither the source reference
    nor the set of connected sessions changes: no new source is
    constructed or connected. -/
theorem playAudio_failure (s : PlayerState) (content : String)
    (speech : Except SpeechError String) (newId : Nat) (f : Bool)
    (hguard : ¬(content = "" ∨ s.audioState = AudioState.loading))
    (hfail : chainFails speech = true) :
    playAudio s content speech newId f
        = ({ s with audioState := AudioState.error }, true) ∧
    (playAudio s content speech newId f).1.audioSource = s.audioSource ∧
    (playAudio s content speech newId f).1.activeSessions = s.activeSessions := by
  have h : playAudio s content speech newId f
      = ({ s with audioState := AudioState.error }, true) := by
    cases speech with
    | error e => rw [playAudio_error s content e newId f hguard]; rfl
    | ok b64 =>
      replace hfail : (decodeChain b64).isNone = true := hfail
      cases hdc : decodeChain b64 with
      | none => rw [playAudio_ok_none s content b64 newId f hguard hdc]; rfl
      | some buf =>
        rw [hdc] at hfail
        simp [Option.isNone] at hfail
  exact ⟨h, by rw [h], by rw [h]⟩

/-- Witness for C8 at an idle state with nonempty text and a failing
    speech fetch. -/
theorem playAudio_failure_witness :
    playAudio (PlayerState.mk AudioState.idle none []) demoText
        (Except.error SpeechError.audioEmpty) 7 false
      = (PlayerState.mk AudioState.error none [], true) :=
  (playAudio_failure (PlayerState.mk AudioState.idle none []) demoText
    (Except.error SpeechError.audioEmpty) 7 false (by decide) (by decide)).1

/-- Reading a mapped range list at an in bounds index gives the mapped
    value. -/
theorem getD_range_map {α : Type} (f : Nat → α) (n i : Nat) (d : α) (h : i < n) :
    ((List.range n).map f).getD i d = f i := by
  rw [List.getD_eq_getElem?_getD]
  simp [List.getElem?_map, List.getElem?_range, h]

/-- Reading a list at an in bounds index gives an element of the list. -/
theorem getD_mem {α : Type} (l : List α) (i : Nat) (d : α) (h : i < l.length) :
    l.getD i d ∈ l := by
  rw [List.getD_eq_getElem?_getD, List.getElem?_eq_getElem h]
  exact List.getElem_mem h

/-- Every sample of the Int16 view of a byte buffer lies in the signed
    16 bit range. -/
theorem toInt16_bounds : ∀ (data : List Nat), (∀ b ∈ data, b < 256) →
    ∀ x ∈ toInt16 data, -32768 ≤ x ∧ x ≤ 32767
  | [], _, x, hx => by simp [toInt16] at hx
  | [b], _, x, hx => by simp [toInt16] at hx
  | lo :: hi :: rest, h, x, hx => by
      simp only [toInt16, List.mem_cons] at hx
      rcases hx with hx | hx
      · subst hx
        have hlo := h lo (by simp)
        have hhi := h hi (by simp)
        simp only [int16OfPair]
        split <;> omega
      · exact toInt16_bounds rest (fun b hb => h b (by simp [hb])) x hx

/-- C4: for every PCM byte buffer of even length with byte values,
    decoding and then reading sample i of channel c yields the raw
    16 bit sample at interleaved index i times channels plus c divided
    by 32768, a value of at least minus one and strictly below one. -/
theorem decodeAudioData_sample (data : List Nat) (ch i c : Nat) (buf : AudioBuffer)
    (hbytes : ∀ b ∈ data, b < 256) (heven : data.length % 2 = 0) (hch : 0 < ch)
    (hdec : decodeAudioData data 24000 ch = some buf)
    (hc : c < ch) (hi : i < buf.frameCount) :
    (buf.channelData.getD c []).getD i 0
        = ((toInt16 data).getD (i * ch + c) 0 : Rat) / 32768 ∧
    (-1 : Rat) ≤ (buf.channelData.getD c []).getD i 0 ∧
    (buf.channelData.getD c []).getD i 0 < 1 := by
  unfold decodeAudioData at hdec
  rw [if_neg (by omega)] at hdec
  by_cases hz : (toInt16 data).length / ch = 0
  · rw [if_pos hz] at hdec
    exact Option.noConfusion hdec
  rw [if_neg hz] at hdec
  simp only [Option.some.injEq] at hdec
  subst hdec
  simp only at hi
  rw [getD_range_map _ ch c [] hc, getD_range_map _ _ i 0 hi]
  have hidx : i * ch + c < (toInt16 data).length := by
    calc i * ch + c < (i + 1) * ch := by rw [Nat.succ_mul]; omega
      _ ≤ (toInt16 data).length / ch * ch :=
          Nat.mul_le_mul_right ch (Nat.succ_le_of_lt hi)
      _ ≤ (toInt16 data).length := Nat.div_mul_le_self _ _
  have hb := toInt16_bounds data hbytes _ (getD_mem (toInt16 data) (i * ch + c) 0 hidx)
  refine ⟨rfl, ?_, ?_⟩
  · rw [show (-1 : Rat) = -32768 / 32768 by norm_num,
       div_le_div_right (by norm_num : (0 : Rat) < 32768)]
    exact_mod_cast hb.1
  · rw [show (1 : Rat) = 32768 / 32768 by norm_num,
       div_lt_div_right (by norm_num : (0 : Rat) < 32768)]
    have hlt := lt_of_le_of_lt hb.2 (by norm_num : (32767 : Int) < 32768)
    exact_mod_cast hlt

/-- Buffer produced for the two byte sample with value minus 32768. -/
def demoBuffer : AudioBuffer := AudioBuffer.mk 1 1 24000 [[-1]]

/-- The decoder maps the two byte buffer holding the most negative
    sample to the demo buffer. -/
theorem decodeAudioData_demo : decodeAudioData [0, 128] 24000 1 = some demoBuffer := by
  unfold decodeAudioData demoBuffer
  rw [if_neg (by decide), if_neg (by decide)]
  simp only [Option.some.injEq]
  norm_num [toInt16, int16OfPair, List.range_succ, List.range_zero]

/-- Witness for C4 at the two byte buffer holding the most negative
    sample, one channel, frame zero. -/
theorem decodeAudioData_sample_witness :
    (demoBuffer.channelData.getD 0 []).getD 0 0
        = ((toInt16 [0, 128]).getD (0 * 1 + 0) 0 : Rat) / 32768 ∧
    (-1 : Rat) ≤ (demoBuffer.channelData.getD 0 []).getD 0 0 ∧
    (demoBuffer.channelData.getD 0 []).getD 0 0 < 1 :=
  decodeAudioData_sample [0, 128] 1 0 0 demoBuffer (by decide) (by decide)
    (by decide) decodeAudioData_demo (by decide) (by decide)

/-- Character list of a string built from a char list. -/
theorem toList_mk (l : List Char) : (String.mk l).toList = l := rfl

/-- dropWhile crosses a prefix whose members all satisfy the test. -/
theorem dropWhile_append_of_all (p : Char → Bool) (l1 l2 : List Char)
    (h : ∀ a ∈ l1, p a = true) :
    List.dropWhile p (l1 ++ l2) = List.dropWhile p l2 := by
  induction l1 with
  | nil => rfl
  | cons a t ih =>
    rw [List.cons_append, List.dropWhile_cons, if_pos (h a (List.mem_cons_self a t))]
    exact ih (fun b hb => h b (List.mem_cons_of_mem a hb))

/-- dropWhile keeps a list whose members all fail the test. -/
theorem dropWhile_eq_self_of_all (p : Char → Bool) (l : List Char)
    (h : ∀ a ∈ l, p a = false) :
    List.dropWhile p l = l := by
  cases l with
  | nil => rfl
  | cons a t =>
    rw [List.dropWhile_cons, if_neg (by simp [h a (List.mem_cons_self a t)])]

/-- Stripping padding from an encoded body followed by padding returns
    the body. -/
theorem stripPad_append (cs ps : List Char)
    (hcs : ∀ c ∈ cs, c ≠ '=') (hps : ∀ c ∈ ps, c = '=') :
    stripPad (cs ++ ps) = cs := by
  unfold stripPad
  rw [List.reverse_append]
  rw [dropWhile_append_of_all _ _ _
    (by intro a ha; rw [List.mem_reverse] at ha; simp [hps a ha])]
  rw [dropWhile_eq_self_of_all _ _
    (by intro a ha; rw [List.mem_reverse] at ha; simp [hcs a ha])]
  exact List.reverse_reverse _

/-- At most two padding characters are emitted. -/
theorem padChars_length (n : Nat) : (padChars n).length ≤ 2 := by
  unfold padChars
  split <;> simp

/-- Every emitted padding character is the padding sign. -/
theorem padChars_all_eq (n : Nat) : ∀ c ∈ padChars n, c = '=' := by
  intro c hc
  unfold padChars at hc
  split at hc
  · simp at hc
    exact hc
  · simp at hc
    exact hc
  · simp at hc

/-- No alphabet character is the padding sign. -/
theorem b64Char_ne_eq (n : Nat) : b64Char n ≠ '=' := by
  unfold b64Char
  by_cases h : n < b64Alphabet.length
  · have hm : b64Alphabet.getD n 'A' ∈ b64Alphabet := by
      rw [List.getD_eq_getElem?_getD, List.getElem?_eq_getElem h]
      exact List.getElem_mem h
    intro hEq
    rw [hEq] at hm
    revert hm
    decide
  · have hn : b64Alphabet.length ≤ n := by omega
    rw [List.getD_eq_getElem?_getD, List.getElem?_eq_none hn]
    decide

/-- Alphabet characters of small sextets belong to the alphabet. -/
theorem b64Char_mem (n : Nat) (h : n < 64) : b64Char n ∈ b64Alphabet := by
  have hl : n < b64Alphabet.length := by
    have h64 : b64Alphabet.length = 64 := by decide
    omega
  unfold b64Char
  rw [List.getD_eq_getElem?_getD, List.getElem?_eq_getElem hl]
  exact List.getElem_mem hl

/-- The alphabet index is a left inverse of the alphabet character. -/
theorem b64_indexOf_char : ∀ n, n < 64 → b64Alphabet.indexOf (b64Char n) = n := by
  decide

/-- All sextets produced by the encoder are below 64. -/
theorem encodeSextets_lt64 : ∀ (bs : List Nat), (∀ b ∈ bs, b < 256) →
    ∀ x ∈ encodeSextets bs, x < 64
  | [], _, x, hx => by simp [encodeSextets] at hx
  | [b1], h, x, hx => by
      have h1 := h b1 (by simp)
      simp only [encodeSextets] at hx
      simp at hx
      rcases hx with hx | hx <;> omega
  | [b1, b2], h, x, hx => by
      have h1 := h b1 (by simp)
      have h2 := h b2 (by simp)
      simp only [encodeSextets] at hx
      simp at hx
      rcases hx with hx | hx | hx <;> omega
  | b1 :: b2 :: b3 :: rest, h, x, hx => by
      have h1 := h b1 (by simp)
      have h2 := h b2 (by simp)
      have h3 := h b3 (by simp)
      simp only [encodeSextets, List.mem_cons] at hx
      rcases hx with hx | hx | hx | hx | hx
      · omega
      · omega
      · omega
      · omega
      · exact encodeSextets_lt64 rest (fun b hb => h b (by simp [hb])) x hx

/-- The encoder never emits a single leftover sextet. -/
theorem encodeSextets_length_mod4 : ∀ (bs : List Nat),
    (encodeSextets bs).length % 4 ≠ 1
  | [] => by simp [encodeSextets]
  | [b1] => by simp [encodeSextets]
  | [b1, b2] => by simp [encodeSextets]
  | b1 :: b2 :: b3 :: rest => by
      have ih := encodeSextets_length_mod4 rest
      simp only [encodeSextets, List.length_cons]
      omega

/-- Reassembling the sextets of a byte sequence restores the bytes. -/
theorem decodeSextets_encodeSextets : ∀ (bs : List Nat), (∀ b ∈ bs, b < 256) →
    decodeSextets (encodeSextets bs) = bs
  | [], _ => rfl
  | [b1], h => by
      have h1 := h b1 (by simp)
      simp only [encodeSextets, decodeSextets, List.cons.injEq, and_true]
      omega
  | [b1, b2], h => by
      have h1 := h b1 (by simp)
      have h2 := h b2 (by simp)
      simp only [encodeSextets, decodeSextets, List.cons.injEq, and_true]
      refine ⟨by omega, by omega⟩
  | b1 :: b2 :: b3 :: rest, h => by
      have h1 := h b1 (by simp)
      have h2 := h b2 (by simp)
      have h3 := h b3 (by simp)
      have ih := decodeSextets_encodeSextets rest (fun b hb => h b (by simp [hb]))
      simp only [encodeSextets, decodeSextets, ih, List.cons.injEq, and_true]
      refine ⟨by omega, by omega, by omega⟩

/-- Indexing back the characters of encoded sextets restores them. -/
theorem map_indexOf_b64Char (l : List Nat) (h : ∀ n ∈ l, n < 64) :
    (l.map b64Char).map (fun c => b64Alphabet.indexOf c) = l := by
  rw [List.map_map]
  conv_rhs => rw [← List.map_id l]
  apply List.map_congr_left
  intro n hn
  exact b64_indexOf_char n (h n hn)

/-- C9: base64 decoding the base64 encoding of any byte sequence with
    decodeBase64 yields the original byte sequence (round trip over the
    valid base64 inputs produced by the encoder). -/
theorem decodeBase64_btoa (bytes : List Nat) (h : ∀ b ∈ bytes, b < 256) :
    decodeBase64 (btoa bytes) = some bytes := by
  have hlt := encodeSextets_lt64 bytes h
  have hchars : ∀ c ∈ (encodeSextets bytes).map b64Char, c ≠ '=' := by
    intro c hc
    rcases List.mem_map.mp hc with ⟨n, _, rfl⟩
    exact b64Char_ne_eq n
  have hstrip : stripPad ((encodeSextets bytes).map b64Char ++ padChars bytes.length)
      = (encodeSextets bytes).map b64Char :=
    stripPad_append _ _ hchars (padChars_all_eq bytes.length)
  have hc1 : ¬(((encodeSextets bytes).map b64Char ++ padChars bytes.length).length
      - ((encodeSextets bytes).map b64Char).length > 2) := by
    rw [List.length_append]
    have := padChars_length bytes.length
    omega
  have hall : ((encodeSextets bytes).map b64Char).all
      (fun c => b64Alphabet.contains c) = true := by
    rw [List.all_eq_true]
    intro c hc
    rcases List.mem_map.mp hc with ⟨n, hn, rfl⟩
    simp [b64Char_mem n (hlt n hn)]
  have hc2 : ¬((! ((encodeSextets bytes).map b64Char).all
      (fun c => b64Alphabet.contains c)) = true) := by
    rw [hall]
    simp
  have hc3 : ¬(((encodeSextets bytes).map b64Char).length % 4 = 1) := by
    rw [List.length_map]
    exact encodeSextets_length_mod4 bytes
  unfold decodeBase64 btoa
  simp only [atobBytes, toList_mk]
  rw [hstrip, if_neg hc1, if_neg hc2, if_neg hc3,
     map_indexOf_b64Char _ hlt, decodeSextets_encodeSextets bytes h]

/-- Witness for C9 at the three bytes of the classic Man example. -/
theorem decodeBase64_btoa_witness :
    decodeBase64 (btoa [77, 97, 110]) = some [77, 97, 110] :=
  decodeBase64_btoa [77, 97, 110] (by decide)
